import Mathlib

/-
Shallow embedding of the filtering / KPI / risk-ranking pipeline of
`src/app.py` (IEA critical-minerals dashboard).

Tables are lists of records.  The float columns of the CSVs are modelled as
exact rationals (the script only compares and copies them); a missing cell
(pandas NaN, filled by `fillna` or dropped by `dropna`) is `Option.none`.
The `mineral`, `scenario` and `technology` columns are plain strings: the
loaders normalise them with `astype(str).str.strip()` before any filter runs,
so no NaN survives in those columns.
-/

namespace IEADash

/-- One row of `clean_supply_demand.csv` after load-time normalisation. -/
structure SupplyDemandRecord where
  mineral : String
  scenario : String
  year : Int
  demand_kt : Rat
  supply_kt : Rat
  gap_kt : Rat
deriving DecidableEq, Repr

/-- One row of `supply_demand_summary.csv` after load-time normalisation.
The four numeric columns are optional: NaN cells are `none`. -/
structure SummaryRecord where
  mineral : String
  scenario : String
  first_deficit_year : Option Int
  max_deficit_kt : Option Rat
  gap_2030_kt : Option Rat
  gap_2040_kt : Option Rat
deriving DecidableEq, Repr

/-- One row of `tech_demand.csv` after load-time normalisation. -/
structure TechDemandRecord where
  mineral : String
  scenario : String
  technology : String
  year : Int
  demand_kt : Rat
deriving DecidableEq, Repr

/-- A row of the ranking table after `ranking["risk_rank"] = range(1, len+1)`
(app.py:180): the summary row (post `fillna`) together with its rank. -/
structure RankedSummaryRow where
  risk_rank : Nat
  row : SummaryRecord
deriving DecidableEq, Repr

/-- The two `fillna` assignments of app.py:172-173 applied to one row:
a missing `max_deficit_kt` becomes `0`, a missing `first_deficit_year`
becomes `9999`. -/
def substSummary (r : SummaryRecord) : SummaryRecord :=
  { r with
    max_deficit_kt := some (r.max_deficit_kt.getD 0)
    first_deficit_year := some (r.first_deficit_year.getD 9999) }

/-- The two-column sort key of app.py:175-178: `(max_deficit_kt,
first_deficit_year)` read off a (post-`fillna`) row. -/
def rankKey (r : SummaryRecord) : Rat × Int :=
  (r.max_deficit_kt.getD 0, r.first_deficit_year.getD 9999)

/-- Ascending lexicographic comparison on the two sort keys; this is the
order `sort_values(by=["max_deficit_kt", "first_deficit_year"],
ascending=[True, True])` sorts by. -/
def rowLe (a b : SummaryRecord) : Prop :=
  (rankKey a).1 < (rankKey b).1 ∨
    ((rankKey a).1 = (rankKey b).1 ∧ (rankKey a).2 ≤ (rankKey b).2)

instance decRowLe : DecidableRel rowLe := fun a b =>
  inferInstanceAs (Decidable ((rankKey a).1 < (rankKey b).1 ∨
    ((rankKey a).1 = (rankKey b).1 ∧ (rankKey a).2 ≤ (rankKey b).2)))

instance : IsTotal SummaryRecord rowLe :=
  ⟨fun a b => by
    unfold rowLe
    rcases lt_trichotomy (rankKey a).1 (rankKey b).1 with h | h | h
    · exact Or.inl (Or.inl h)
    · rcases le_total (rankKey a).2 (rankKey b).2 with h2 | h2
      · exact Or.inl (Or.inr ⟨h, h2⟩)
      · exact Or.inr (Or.inr ⟨h.symm, h2⟩)
    · exact Or.inr (Or.inl h)⟩

instance : IsTrans SummaryRecord rowLe :=
  ⟨fun a b c hab hbc => by
    unfold rowLe at *
    rcases hab with h1 | ⟨h1, h1b⟩ <;> rcases hbc with h2 | ⟨h2, h2b⟩
    · exact Or.inl (h1.trans h2)
    · exact Or.inl (h2 ▸ h1)
    · exact Or.inl (h1 ▸ h2)
    · exact Or.inr ⟨h1.trans h2, h1b.trans h2b⟩⟩

/-- app.py:180, `range(1, len(ranking) + 1)`: consecutive ranks starting
at `n` attached to the rows in order. -/
def assignRanks : Nat → List SummaryRecord → List RankedSummaryRow
  | _, [] => []
  | n, r :: rs => ⟨n, r⟩ :: assignRanks (n + 1) rs

/-- app.py:170-178: select the rows of the ranking scenario from the full
summary table, apply the `fillna` substitutions, and stable-sort ascending by
`(max_deficit_kt, first_deficit_year)` (a pandas multi-column `sort_values`
is `numpy.lexsort`, which is stable). -/
def sortedRows (summary : List SummaryRecord) (rank_scenario : String) :
    List SummaryRecord :=
  List.insertionSort rowLe
    ((summary.filter fun r => r.scenario == rank_scenario).map substSummary)

/-- The risk-ranking block of app.py:170-180: the sorted scenario rows with
the dense ranks 1..N attached. -/
def rankRisk (summary : List SummaryRecord) (rank_scenario : String) :
    List RankedSummaryRow :=
  assignRanks 1 (sortedRows summary rank_scenario)

/-- The Lithium row of the spec's worked example: no reported deficit. -/
def lithiumRow : SummaryRecord :=
  { mineral := "Lithium", scenario := "STEPS", first_deficit_year := none
    max_deficit_kt := none, gap_2030_kt := none, gap_2040_kt := none }

/-- The Cobalt row of the spec's worked example: deficit 120 kt from 2031. -/
def cobaltRow : SummaryRecord :=
  { mineral := "Cobalt", scenario := "STEPS", first_deficit_year := some 2031
    max_deficit_kt := some 120, gap_2030_kt := none, gap_2040_kt := none }

/-- The spec's worked-example summary table for scenario "STEPS". -/
def exampleSummary : List SummaryRecord := [lithiumRow, cobaltRow]

/-- app.py:64-67: rows of the time-series table whose mineral equals the
selected mineral exactly and whose scenario is one of the selected ones. -/
def filterSeries (df : List SupplyDemandRecord) (mineral : String)
    (scenario : List String) : List SupplyDemandRecord :=
  df.filter fun r => r.mineral == mineral && scenario.contains r.scenario

/-- app.py:69-72: the same predicate applied to the summary table. -/
def filterSummary (summary : List SummaryRecord) (mineral : String)
    (scenario : List String) : List SummaryRecord :=
  summary.filter fun r => r.mineral == mineral && scenario.contains r.scenario

/-- Python's `str.strip()` on a character list: drop whitespace from both
ends. -/
def trimChars (l : List Char) : List Char :=
  ((l.dropWhile Char.isWhitespace).reverse.dropWhile Char.isWhitespace).reverse

/-- Python's `str.lower()` on a character list. -/
def lowerChars (l : List Char) : List Char :=
  l.map Char.toLower

/-- app.py:74, `mineral.split("-")[0].strip()`: the part of the selected
mineral before the first hyphen, with surrounding whitespace removed. -/
def baseMineral (mineral : String) : String :=
  (trimChars (mineral.toList.takeWhile fun c => c ≠ '-')).asString

/-- Does `hay` start with `needle`?  (character-list matching) -/
def startsWithChars : List Char → List Char → Bool
  | _, [] => true
  | [], _ :: _ => false
  | a :: as, b :: bs => a == b && startsWithChars as bs

/-- Does `needle` occur contiguously anywhere inside `hay`? -/
def hasSubstrChars : List Char → List Char → Bool
  | [], needle => needle.isEmpty
  | a :: t, needle => startsWithChars (a :: t) needle || hasSubstrChars t needle

/-- app.py:77, `str.contains(base_mineral, case=False, na=False)`:
case-insensitive substring containment (the pattern here is a plain mineral
name, so the regex engine behind `str.contains` matches it literally). -/
def containsCI (hay needle : String) : Bool :=
  hasSubstrChars (lowerChars hay.toList) (lowerChars needle.toList)

/-- The property `containsCI` decides: the lower-cased needle occurs
contiguously inside the lower-cased haystack. -/
def CIContains (hay needle : String) : Prop :=
  ∃ pre post, lowerChars hay.toList = pre ++ lowerChars needle.toList ++ post

/-- app.py:76-79: technology rows whose mineral contains the base mineral
case-insensitively and whose scenario is one of the selected ones. -/
def filterTech (tech_df : List TechDemandRecord) (mineral : String)
    (scenario : List String) : List TechDemandRecord :=
  tech_df.filter fun r =>
    containsCI r.mineral (baseMineral mineral) && scenario.contains r.scenario

/-- Drop the missing cells of a column (`Series.dropna`). -/
def dropna {α : Type} (l : List (Option α)) : List α :=
  l.filterMap id

/-- app.py:84-85: `series.min()` when the series exists and has at least one
non-missing cell, `None` otherwise.  `series` is `None` when the column is
absent from the table (`DataFrame.get`); `Series.min` skips NaN cells. -/
def safe_min {α : Type} [Min α] (col : Option (List (Option α))) : Option α :=
  match col with
  | none => none
  | some l =>
    match dropna l with
    | [] => none
    | x :: xs => some (xs.foldl min x)

/-- The four numeric columns of the (filtered) summary table as
`DataFrame.get` sees them: `none` when the column is absent, otherwise the
list of cells in row order. -/
structure SummaryCols where
  first_deficit_year : Option (List (Option Int))
  max_deficit_kt : Option (List (Option Rat))
  gap_2030_kt : Option (List (Option Rat))
  gap_2040_kt : Option (List (Option Rat))
deriving DecidableEq, Repr

/-- The four KPI scalars of app.py:87-90. -/
structure KPIs where
  firstDeficitYear : Option Int
  maxDeficit : Option Rat
  gap2030 : Option Rat
  gap2040 : Option Rat
deriving DecidableEq, Repr

/-- app.py:87-90: the four KPIs, each an independent `safe_min` of its
column. -/
def computeKPIs (t : SummaryCols) : KPIs :=
  { firstDeficitYear := safe_min t.first_deficit_year
    maxDeficit := safe_min t.max_deficit_kt
    gap2030 := safe_min t.gap_2030_kt
    gap2040 := safe_min t.gap_2040_kt }

/-- Column view of a list of summary rows (all four columns present). -/
def colsOf (rows : List SummaryRecord) : SummaryCols :=
  { first_deficit_year := some (rows.map fun r => r.first_deficit_year)
    max_deficit_kt := some (rows.map fun r => r.max_deficit_kt)
    gap_2030_kt := some (rows.map fun r => r.gap_2030_kt)
    gap_2040_kt := some (rows.map fun r => r.gap_2040_kt) }

/-- One row of `ranking_display` (app.py:182-191): the selected columns of a
ranked row, read after the `fillna` substitutions. -/
structure DisplayRow where
  risk_rank : Nat
  mineral : String
  first_deficit_year : Option Int
  max_deficit_kt : Option Rat
  gap_2030_kt : Option Rat
  gap_2040_kt : Option Rat
deriving DecidableEq, Repr

/-- app.py:182-191: the displayed ranking table, column-selected from the
ranked (post-`fillna`) rows. -/
def ranking_display (summary : List SummaryRecord) (rank_scenario : String) :
    List DisplayRow :=
  (rankRisk summary rank_scenario).map fun rr =>
    { risk_rank := rr.risk_rank
      mineral := rr.row.mineral
      first_deficit_year := rr.row.first_deficit_year
      max_deficit_kt := rr.row.max_deficit_kt
      gap_2030_kt := rr.row.gap_2030_kt
      gap_2040_kt := rr.row.gap_2040_kt }

/-- The ranking block with the session state made explicit: `summary[...]`
selects, `.copy()` (app.py:170) yields a fresh table, the two `fillna`
assignments (app.py:172-173) rewrite columns of that fresh table only, and
the final state of the session's summary table is returned next to the
ranking. -/
def rankRiskRun (summary : List SummaryRecord) (rank_scenario : String) :
    List SummaryRecord × List RankedSummaryRow :=
  let ranking0 := summary.filter fun r => r.scenario == rank_scenario
  let ranking1 := ranking0.map fun r =>
    { r with max_deficit_kt := some (r.max_deficit_kt.getD 0) }
  let ranking2 := ranking1.map fun r =>
    { r with first_deficit_year := some (r.first_deficit_year.getD 9999) }
  (summary, assignRanks 1 (List.insertionSort rowLe ranking2))

/-- The pipeline outputs handed to the presentation layer. -/
structure PipelineOut where
  filtered : List SupplyDemandRecord
  summary_filtered : List SummaryRecord
  tech_filtered : List TechDemandRecord
  kpis : KPIs
  ranking : List RankedSummaryRow
  ranking_disp : List DisplayRow
deriving DecidableEq, Repr

/-- One full re-run of the script for a given set of widget selections:
filter the three tables (app.py:64-79), compute the KPIs (app.py:84-90), and
build the risk ranking from the FULL summary table and the ranking scenario
only (app.py:170-191). -/
def pipeline (df : List SupplyDemandRecord) (summary : List SummaryRecord)
    (tech_df : List TechDemandRecord) (mineral : String)
    (scenario : List String) (rank_scenario : String) : PipelineOut :=
  { filtered := filterSeries df mineral scenario
    summary_filtered := filterSummary summary mineral scenario
    tech_filtered := filterTech tech_df mineral scenario
    kpis := computeKPIs (colsOf (filterSummary summary mineral scenario))
    ranking := rankRisk summary rank_scenario
    ranking_disp := ranking_display summary rank_scenario }

/-
Helper lemmas about the ranking machinery.
-/

theorem assignRanks_map_row : ∀ (n : Nat) (l : List SummaryRecord),
    (assignRanks n l).map (fun rr => rr.row) = l
  | _, [] => rfl
  | n, r :: rs => by
    simp [assignRanks, assignRanks_map_row (n + 1) rs]

theorem assignRanks_length : ∀ (n : Nat) (l : List SummaryRecord),
    (assignRanks n l).length = l.length
  | _, [] => rfl
  | n, r :: rs => by
    simp [assignRanks, assignRanks_length (n + 1) rs]

theorem assignRanks_map_rank : ∀ (n : Nat) (l : List SummaryRecord),
    (assignRanks n l).map (fun rr => rr.risk_rank) = List.range' n l.length
  | _, [] => rfl
  | n, r :: rs => by
    simp [assignRanks, assignRanks_map_rank (n + 1) rs, List.range'_succ]

theorem assignRanks_get_rank : ∀ (n : Nat) (l : List SummaryRecord) (i : Nat)
    (hi : i < (assignRanks n l).length),
    ((assignRanks n l).get ⟨i, hi⟩).risk_rank = n + i
  | _, [], i, hi => by simp [assignRanks] at hi
  | n, r :: rs, 0, _ => by simp [assignRanks]
  | n, r :: rs, i + 1, hi => by
    have ih := assignRanks_get_rank (n + 1) rs i (by
      simpa [assignRanks] using Nat.lt_of_succ_lt_succ (by simpa [assignRanks] using hi))
    simpa [assignRanks, Nat.add_assoc, Nat.add_comm 1 i] using ih

theorem assignRanks_get_row : ∀ (n : Nat) (l : List SummaryRecord) (i : Nat)
    (hi : i < (assignRanks n l).length) (hi2 : i < l.length),
    ((assignRanks n l).get ⟨i, hi⟩).row = l.get ⟨i, hi2⟩
  | _, [], i, hi, _ => by simp [assignRanks] at hi
  | n, r :: rs, 0, _, _ => by simp [assignRanks]
  | n, r :: rs, i + 1, hi, hi2 => by
    have ih := assignRanks_get_row (n + 1) rs i (by
      simpa [assignRanks] using Nat.lt_of_succ_lt_succ (by simpa [assignRanks] using hi))
      (Nat.lt_of_succ_lt_succ hi2)
    simpa [assignRanks] using ih

theorem sortedRows_sorted (summary : List SummaryRecord) (sc : String) :
    List.Sorted rowLe (sortedRows summary sc) :=
  List.sorted_insertionSort rowLe _

theorem sortedRows_perm (summary : List SummaryRecord) (sc : String) :
    List.Perm (sortedRows summary sc)
      ((summary.filter fun r => r.scenario == sc).map substSummary) :=
  List.perm_insertionSort rowLe _

theorem rankRisk_map_row (summary : List SummaryRecord) (sc : String) :
    (rankRisk summary sc).map (fun rr => rr.row) = sortedRows summary sc :=
  assignRanks_map_row 1 _

theorem rankRisk_length (summary : List SummaryRecord) (sc : String) :
    (rankRisk summary sc).length =
      (summary.filter fun r => r.scenario == sc).length := by
  rw [rankRisk, assignRanks_length]
  exact (sortedRows_perm summary sc).length_eq.trans (List.length_map _ _)

theorem rankRisk_get_rank (summary : List SummaryRecord) (sc : String) (i : Nat)
    (hi : i < (rankRisk summary sc).length) :
    ((rankRisk summary sc).get ⟨i, hi⟩).risk_rank = i + 1 := by
  simp only [rankRisk] at hi ⊢
  rw [assignRanks_get_rank 1 _ i hi, Nat.add_comm]

theorem rankRisk_get_row (summary : List SummaryRecord) (sc : String) (i : Nat)
    (hi : i < (rankRisk summary sc).length)
    (hi2 : i < (sortedRows summary sc).length) :
    ((rankRisk summary sc).get ⟨i, hi⟩).row = (sortedRows summary sc).get ⟨i, hi2⟩ := by
  simp only [rankRisk] at hi ⊢
  exact assignRanks_get_row 1 _ i hi hi2

theorem rankRisk_row_mem {summary : List SummaryRecord} {sc : String}
    {rr : RankedSummaryRow} (h : rr ∈ rankRisk summary sc) :
    ∃ r ∈ summary, r.scenario = sc ∧ rr.row = substSummary r := by
  have h1 : rr.row ∈ (rankRisk summary sc).map (fun rr => rr.row) :=
    List.mem_map_of_mem _ h
  rw [rankRisk_map_row] at h1
  have h2 := (sortedRows_perm summary sc).mem_iff.mp h1
  rcases List.mem_map.mp h2 with ⟨r, hrmem, hr⟩
  rcases List.mem_filter.mp hrmem with ⟨hrs, hsc⟩
  exact ⟨r, hrs, by simpa using hsc, hr.symm⟩

theorem sortedRows_row_subst {summary : List SummaryRecord} {sc : String}
    {r : SummaryRecord} (h : r ∈ sortedRows summary sc) :
    ∃ r0 ∈ summary, r0.scenario = sc ∧ r = substSummary r0 := by
  have h2 := (sortedRows_perm summary sc).mem_iff.mp h
  rcases List.mem_map.mp h2 with ⟨r0, hrmem, hr⟩
  rcases List.mem_filter.mp hrmem with ⟨hrs, hsc⟩
  exact ⟨r0, hrs, by simpa using hsc, hr.symm⟩

/-- Stability of the sort: the rows carrying any fixed sort key appear in the
sorted output exactly as they appear, in order, in the input list. -/
theorem insertionSort_filter_key (l : List SummaryRecord) (k : Rat × Int) :
    (List.insertionSort rowLe l).filter (fun r => decide (rankKey r = k)) =
      l.filter (fun r => decide (rankKey r = k)) := by
  have hpair : (l.filter (fun r => decide (rankKey r = k))).Pairwise rowLe := by
    apply List.pairwise_of_forall_mem_list
    intro a ha b hb
    have hak : rankKey a = k := by simpa using (List.mem_filter.mp ha).2
    have hbk : rankKey b = k := by simpa using (List.mem_filter.mp hb).2
    exact Or.inr ⟨by rw [hak, hbk], by rw [hak, hbk]⟩
  have hsub : List.Sublist (l.filter (fun r => decide (rankKey r = k)))
      (List.insertionSort rowLe l) :=
    List.sublist_insertionSort hpair (List.filter_sublist l)
  have hsub2 := hsub.filter (fun r => decide (rankKey r = k))
  rw [List.filter_eq_self.mpr (fun a ha => (List.mem_filter.mp ha).2)] at hsub2
  have hperm : List.Perm
      ((List.insertionSort rowLe l).filter (fun r => decide (rankKey r = k)))
      (l.filter (fun r => decide (rankKey r = k))) :=
    (List.perm_insertionSort rowLe l).filter _
  exact (hsub2.eq_of_length hperm.length_eq.symm).symm

/-
Helper lemmas about the minimum fold used by safe_min.
-/

theorem foldl_min_le_init {α : Type} [LinearOrder α] :
    ∀ (xs : List α) (x : α), xs.foldl min x ≤ x
  | [], x => le_refl x
  | a :: xs, x => le_trans (foldl_min_le_init xs (min x a)) (min_le_left x a)

theorem foldl_min_mem {α : Type} [LinearOrder α] :
    ∀ (xs : List α) (x : α), xs.foldl min x = x ∨ xs.foldl min x ∈ xs
  | [], x => Or.inl rfl
  | a :: xs, x => by
    simp only [List.foldl_cons]
    rcases foldl_min_mem xs (min x a) with h | h
    · rw [h]
      rcases min_choice x a with hc | hc
      · exact Or.inl hc
      · exact Or.inr (by rw [hc]; exact List.mem_cons_self a xs)
    · exact Or.inr (List.mem_cons_of_mem a h)

theorem foldl_min_le_mem {α : Type} [LinearOrder α] :
    ∀ (xs : List α) (x y : α), y ∈ xs → xs.foldl min x ≤ y
  | [], _, y, hy => absurd hy (List.not_mem_nil y)
  | a :: xs, x, y, hy => by
    simp only [List.foldl_cons]
    rcases List.mem_cons.mp hy with rfl | hy2
    · exact le_trans (foldl_min_le_init xs (min x y)) (min_le_right x y)
    · exact foldl_min_le_mem xs (min x a) y hy2

/-- The KPI rule of the spec for one column: an absent column or a column
with no surviving cell yields the sentinel, otherwise the minimum of the
surviving cells. -/
def kpiFollowsRule {α : Type} [LinearOrder α]
    (col : Option (List (Option α))) (res : Option α) : Prop :=
  (col = none → res = none) ∧
  (∀ l, col = some l → dropna l = [] → res = none) ∧
  (∀ l, col = some l → dropna l ≠ [] →
    ∃ m, res = some m ∧ m ∈ dropna l ∧ ∀ x ∈ dropna l, m ≤ x)

theorem safe_min_rule {α : Type} [LinearOrder α]
    (col : Option (List (Option α))) : kpiFollowsRule col (safe_min col) := by
  refine ⟨?_, ?_, ?_⟩
  · intro h
    rw [h]
    rfl
  · intro l hl hd
    rw [hl]
    simp [safe_min, hd]
  · intro l hl hne
    subst hl
    cases hdl : dropna l with
    | nil => exact absurd hdl hne
    | cons x xs =>
      refine ⟨xs.foldl min x, by simp [safe_min, hdl], ?_, ?_⟩
      · rcases foldl_min_mem xs x with h | h
        · rw [h]
          exact List.mem_cons_self x xs
        · exact List.mem_cons_of_mem x h
      · intro y hy
        rcases List.mem_cons.mp hy with rfl | hy2
        · exact foldl_min_le_init xs _
        · exact foldl_min_le_mem xs x y hy2

/-
Helper lemmas about the case-insensitive substring test.
-/

theorem startsWithChars_iff : ∀ (as bs : List Char),
    startsWithChars as bs = true ↔ ∃ rest, as = bs ++ rest
  | as, [] => by simp [startsWithChars]
  | [], b :: bs => by simp [startsWithChars]
  | a :: as, b :: bs => by
    simp only [startsWithChars, Bool.and_eq_true, beq_iff_eq,
      startsWithChars_iff as bs, List.cons_append, List.cons.injEq]
    constructor
    · rintro ⟨rfl, rest, rfl⟩
      exact ⟨rest, rfl, rfl⟩
    · rintro ⟨rest, rfl, rfl⟩
      exact ⟨rfl, rest, rfl⟩

theorem hasSubstrChars_iff : ∀ (hay needle : List Char),
    hasSubstrChars hay needle = true ↔ ∃ pre post, hay = pre ++ needle ++ post
  | [], needle => by cases needle <;> simp [hasSubstrChars]
  | a :: t, needle => by
    simp only [hasSubstrChars, Bool.or_eq_true, startsWithChars_iff,
      hasSubstrChars_iff t needle]
    constructor
    · rintro (⟨rest, h⟩ | ⟨pre, post, h⟩)
      · exact ⟨[], rest, by simpa using h⟩
      · exact ⟨a :: pre, post, by simp [h]⟩
    · rintro ⟨pre, post, h⟩
      cases pre with
      | nil => exact Or.inl ⟨post, by simpa using h⟩
      | cons p ps =>
        simp only [List.cons_append, List.cons.injEq] at h
        exact Or.inr ⟨ps, post, h.2⟩

theorem containsCI_iff (hay needle : String) :
    containsCI hay needle = true ↔ CIContains hay needle :=
  hasSubstrChars_iff _ _

theorem rankRisk_length_sorted (summary : List SummaryRecord) (sc : String) :
    (rankRisk summary sc).length = (sortedRows summary sc).length :=
  assignRanks_length 1 _

theorem sortedRows_length (summary : List SummaryRecord) (sc : String) :
    (sortedRows summary sc).length =
      (summary.filter fun r => r.scenario == sc).length :=
  (sortedRows_perm summary sc).length_eq.trans (List.length_map _ _)

/-
Claim theorems.
-/

/-- A summary row whose reported deficit is negative (scenario "APS"). -/
def nickelRow : SummaryRecord :=
  { mineral := "Nickel", scenario := "APS", first_deficit_year := some 2035
    max_deficit_kt := some (-50), gap_2030_kt := none, gap_2040_kt := none }

/-- A summary row with no reported deficit (scenario "APS"). -/
def graphiteRow : SummaryRecord :=
  { mineral := "Graphite", scenario := "APS", first_deficit_year := none
    max_deficit_kt := none, gap_2030_kt := none, gap_2040_kt := none }

/-- A summary table whose reported deficits are all negative. -/
def negSummary : List SummaryRecord := [graphiteRow, nickelRow]

/-- C1 counterexample: in the spec's own "STEPS" example table, the Lithium
row has no reported deficit (missing `max_deficit_kt`) yet receives
`risk_rank` 1, which is NOT greater than the rank 2 of the Cobalt row, whose
deficit 120 is reported: its substituted 0 sorts before the positive 120, so
"no reported deficit sorts last" fails for this summary table. -/
theorem c1_counterexample :
    lithiumRow.max_deficit_kt = none ∧ cobaltRow.max_deficit_kt = some 120 ∧
    ((rankRisk exampleSummary "STEPS").map fun rr => (rr.row.mineral, rr.risk_rank)) =
      [("Lithium", 1), ("Cobalt", 2)] := by
  decide

/-- C1 (amended): before sorting, every missing `max_deficit_kt` is
substituted with 0 and every missing `first_deficit_year` with 9999, and a
row with no reported deficit receives a `risk_rank` greater than that of
every row with a reported deficit PROVIDED all reported `max_deficit_kt`
values of the scenario are negative; under the ascending sort the
0-substitute sorts before any positive reported deficit. -/
theorem c1_subst_and_missing_sorts_last (summary : List SummaryRecord) (sc : String)
    (hneg : ∀ r ∈ summary, r.scenario = sc → r.max_deficit_kt ≠ none →
      r.max_deficit_kt.getD 0 < 0)
    (i j : Nat) (hi : i < (rankRisk summary sc).length)
    (hj : j < (rankRisk summary sc).length)
    (hmiss : ((rankRisk summary sc).get ⟨i, hi⟩).row.max_deficit_kt = some 0)
    (hrep : ((rankRisk summary sc).get ⟨j, hj⟩).row.max_deficit_kt ≠ some 0) :
    (∀ rr ∈ rankRisk summary sc, ∃ r ∈ summary, r.scenario = sc ∧
      rr.row.max_deficit_kt = some (r.max_deficit_kt.getD 0) ∧
      rr.row.first_deficit_year = some (r.first_deficit_year.getD 9999)) ∧
    ((rankRisk summary sc).get ⟨j, hj⟩).risk_rank <
      ((rankRisk summary sc).get ⟨i, hi⟩).risk_rank := by
  constructor
  · intro rr hrr
    rcases rankRisk_row_mem hrr with ⟨r, hr, hsc, hrow⟩
    exact ⟨r, hr, hsc, by rw [hrow]; rfl, by rw [hrow]; rfl⟩
  · have hi2 : i < (sortedRows summary sc).length := by
      rwa [rankRisk_length_sorted] at hi
    have hj2 : j < (sortedRows summary sc).length := by
      rwa [rankRisk_length_sorted] at hj
    have hrow_i := rankRisk_get_row summary sc i hi hi2
    have hrow_j := rankRisk_get_row summary sc j hj hj2
    rcases sortedRows_row_subst
        (List.get_mem (sortedRows summary sc) j hj2) with ⟨r0, hr0mem, hr0sc, hr0eq⟩
    have hjmax : ((sortedRows summary sc).get ⟨j, hj2⟩).max_deficit_kt =
        some (r0.max_deficit_kt.getD 0) := by
      rw [hr0eq]
      rfl
    have hrep2 : ((sortedRows summary sc).get ⟨j, hj2⟩).max_deficit_kt ≠ some 0 := by
      rw [← hrow_j]
      exact hrep
    have hr0ne : r0.max_deficit_kt ≠ none := by
      intro hnone
      apply hrep2
      rw [hjmax, hnone]
      rfl
    have hneg0 : r0.max_deficit_kt.getD 0 < 0 := hneg r0 hr0mem hr0sc hr0ne
    have himax : ((sortedRows summary sc).get ⟨i, hi2⟩).max_deficit_kt = some 0 := by
      rw [← hrow_i]
      exact hmiss
    have hkey_i : (rankKey ((sortedRows summary sc).get ⟨i, hi2⟩)).1 = 0 := by
      show ((sortedRows summary sc).get ⟨i, hi2⟩).max_deficit_kt.getD 0 = 0
      rw [himax]
      rfl
    have hkey_j : (rankKey ((sortedRows summary sc).get ⟨j, hj2⟩)).1 < 0 := by
      show ((sortedRows summary sc).get ⟨j, hj2⟩).max_deficit_kt.getD 0 < 0
      rw [hjmax]
      exact hneg0
    have hij : j < i := by
      rcases Nat.lt_trichotomy j i with h | h | h
      · exact h
      · exfalso
        subst h
        have h0 : (0 : Rat) = r0.max_deficit_kt.getD 0 :=
          Option.some.inj (himax.symm.trans hjmax)
        rw [← h0] at hneg0
        exact lt_irrefl 0 hneg0
      · exfalso
        have hs := (sortedRows_sorted summary sc).rel_get_of_lt
          (show (⟨i, hi2⟩ : Fin (sortedRows summary sc).length) < ⟨j, hj2⟩ from
            Fin.mk_lt_mk.mpr h)
        rcases hs with h1 | ⟨h1, _⟩
        · rw [hkey_i] at h1
          exact absurd hkey_j (lt_asymm h1)
        · rw [hkey_i] at h1
          rw [← h1] at hkey_j
          exact lt_irrefl 0 hkey_j
    rw [rankRisk_get_rank summary sc j hj, rankRisk_get_rank summary sc i hi]
    exact Nat.succ_lt_succ hij

/-- C1 witness: in a table whose reported deficits are negative, the
Graphite row (no reported deficit, substituted to 0) gets rank 2, after the
Nickel row with reported deficit -50 at rank 1. -/
theorem c1_witness :
    (∀ rr ∈ rankRisk negSummary "APS", ∃ r ∈ negSummary, r.scenario = "APS" ∧
      rr.row.max_deficit_kt = some (r.max_deficit_kt.getD 0) ∧
      rr.row.first_deficit_year = some (r.first_deficit_year.getD 9999)) ∧
    ((rankRisk negSummary "APS").get ⟨0, by decide⟩).risk_rank <
      ((rankRisk negSummary "APS").get ⟨1, by decide⟩).risk_rank :=
  c1_subst_and_missing_sorts_last negSummary "APS" (by decide) 1 0 (by decide)
    (by decide) (by decide) (by decide)

/-- C2: on the spec's worked example for scenario "STEPS" — Lithium with
both deficit fields missing, Cobalt with `max_deficit_kt` 120 and
`first_deficit_year` 2031 — the ranking assigns Lithium `risk_rank` 1 and
Cobalt `risk_rank` 2, because Lithium's missing `max_deficit_kt` is
substituted with 0 and 0 < 120 under the ascending sort. -/
theorem c2_example_ranks :
    lithiumRow.max_deficit_kt = none ∧ lithiumRow.first_deficit_year = none ∧
    cobaltRow.max_deficit_kt = some 120 ∧ cobaltRow.first_deficit_year = some 2031 ∧
    ((rankRisk exampleSummary "STEPS").map fun rr => (rr.risk_rank, rr.row.mineral)) =
      [(1, "Lithium"), (2, "Cobalt")] := by
  decide

/-- C3: in the ranked output, a strictly smaller `risk_rank` implies a
lexicographically ≤ pair of substituted sort keys, and the sort is stable:
for every key value, the rows carrying that key appear in the output in
exactly the order they had among the scenario's (substituted) input rows. -/
theorem c3_order_law_and_stable (summary : List SummaryRecord) (sc : String) :
    (∀ (i j : Fin (rankRisk summary sc).length),
      ((rankRisk summary sc).get i).risk_rank <
          ((rankRisk summary sc).get j).risk_rank →
        rowLe ((rankRisk summary sc).get i).row ((rankRisk summary sc).get j).row) ∧
    (∀ k : Rat × Int,
      (((rankRisk summary sc).map fun rr => rr.row).filter
          fun r => decide (rankKey r = k)) =
        (((summary.filter fun r => r.scenario == sc).map substSummary).filter
          fun r => decide (rankKey r = k))) := by
  constructor
  · rintro ⟨i, hi⟩ ⟨j, hj⟩ hlt
    have hi2 : i < (sortedRows summary sc).length := by
      rwa [rankRisk_length_sorted] at hi
    have hj2 : j < (sortedRows summary sc).length := by
      rwa [rankRisk_length_sorted] at hj
    rw [rankRisk_get_rank summary sc i hi, rankRisk_get_rank summary sc j hj] at hlt
    rw [rankRisk_get_row summary sc i hi hi2, rankRisk_get_row summary sc j hj hj2]
    exact (sortedRows_sorted summary sc).rel_get_of_lt
      (show (⟨i, hi2⟩ : Fin (sortedRows summary sc).length) < ⟨j, hj2⟩ from
        Fin.mk_lt_mk.mpr (Nat.lt_of_succ_lt_succ hlt))
  · intro k
    rw [rankRisk_map_row]
    exact insertionSort_filter_key
      ((summary.filter fun r => r.scenario == sc).map substSummary) k

/-- C3 witness: in the spec's "STEPS" example the rank-1 Lithium row's key
pair is lexicographically ≤ the rank-2 Cobalt row's key pair. -/
theorem c3_witness :
    rowLe ((rankRisk exampleSummary "STEPS").get ⟨0, by decide⟩).row
      ((rankRisk exampleSummary "STEPS").get ⟨1, by decide⟩).row :=
  (c3_order_law_and_stable exampleSummary "STEPS").1 ⟨0, by decide⟩ ⟨1, by decide⟩
    (by decide)

/-- C4: for every summary table and scenario, the ranked output has exactly
one row per input row of that scenario (the rows, carrying the `fillna`
substitutions, are a permutation of the substituted scenario rows), and the
`risk_rank` column is exactly the dense sequence 1..N. -/
theorem c4_permutation_dense_ranks (summary : List SummaryRecord) (sc : String) :
    (rankRisk summary sc).length =
        (summary.filter fun r => r.scenario == sc).length ∧
    List.Perm ((rankRisk summary sc).map fun rr => rr.row)
      ((summary.filter fun r => r.scenario == sc).map substSummary) ∧
    ((rankRisk summary sc).map fun rr => rr.risk_rank) =
      List.range' 1 (summary.filter fun r => r.scenario == sc).length := by
  refine ⟨rankRisk_length summary sc, ?_, ?_⟩
  · rw [rankRisk_map_row]
    exact sortedRows_perm summary sc
  · simp only [rankRisk]
    rw [assignRanks_map_rank, sortedRows_length]

/-- C5: each of the four KPIs is an independent `safe_min` of its column,
and `safe_min` follows the one shared rule — drop the missing cells and
take the minimum of what remains — returning the sentinel `none` (the
function is total, so no error is possible) when the column is absent, the
input has zero rows, or every cell is missing. -/
theorem c5_kpis_follow_rule (t : SummaryCols) :
    (computeKPIs t).firstDeficitYear = safe_min t.first_deficit_year ∧
    (computeKPIs t).maxDeficit = safe_min t.max_deficit_kt ∧
    (computeKPIs t).gap2030 = safe_min t.gap_2030_kt ∧
    (computeKPIs t).gap2040 = safe_min t.gap_2040_kt ∧
    kpiFollowsRule t.first_deficit_year (computeKPIs t).firstDeficitYear ∧
    kpiFollowsRule t.max_deficit_kt (computeKPIs t).maxDeficit ∧
    kpiFollowsRule t.gap_2030_kt (computeKPIs t).gap2030 ∧
    kpiFollowsRule t.gap_2040_kt (computeKPIs t).gap2040 :=
  ⟨rfl, rfl, rfl, rfl, safe_min_rule _, safe_min_rule _, safe_min_rule _,
    safe_min_rule _⟩

/-- A column set exercising all sentinel cases: zero rows, absent column,
all-missing column, and a column with surviving cells. -/
def witnessCols : SummaryCols :=
  { first_deficit_year := some [], max_deficit_kt := none
    gap_2030_kt := some [none], gap_2040_kt := some [some 5, none, some 3] }

/-- C5 witness: the three sentinel cases each give `none`, and the fourth
column's KPI is the minimum 3 of its surviving cells. -/
theorem c5_witness :
    (computeKPIs witnessCols).firstDeficitYear = none ∧
    (computeKPIs witnessCols).maxDeficit = none ∧
    (computeKPIs witnessCols).gap2030 = none ∧
    ∃ m, (computeKPIs witnessCols).gap2040 = some m ∧
      m ∈ dropna [some (5 : Rat), none, some 3] ∧
      ∀ x ∈ dropna [some (5 : Rat), none, some 3], m ≤ x :=
  ⟨(c5_kpis_follow_rule witnessCols).2.2.2.2.1.2.1 [] rfl rfl,
   (c5_kpis_follow_rule witnessCols).2.2.2.2.2.1.1 rfl,
   (c5_kpis_follow_rule witnessCols).2.2.2.2.2.2.1.2.1 [none] rfl rfl,
   (c5_kpis_follow_rule witnessCols).2.2.2.2.2.2.2.2.2 [some 5, none, some 3] rfl
     (by decide)⟩

/-- C6: every row of the filtered time-series table has exactly the selected
mineral and a scenario from the selected set, and the filter cannot grow the
table. -/
theorem c6_filterSeries_sound (df : List SupplyDemandRecord) (mineral : String)
    (scenario : List String) :
    (∀ r ∈ filterSeries df mineral scenario,
      r.mineral = mineral ∧ r.scenario ∈ scenario) ∧
    (filterSeries df mineral scenario).length ≤ df.length := by
  constructor
  · intro r hr
    have h := (List.mem_filter.mp hr).2
    simpa [List.contains, List.elem_eq_mem] using h
  · exact List.length_filter_le _ _

/-- A concrete supply/demand time-series row. -/
def sdRow : SupplyDemandRecord :=
  { mineral := "Lithium", scenario := "STEPS", year := 2030
    demand_kt := 100, supply_kt := 80, gap_kt := -20 }

/-- C6 witness: the filter keeps the matching row of a one-row table, whose
fields satisfy the predicate, and the output is no longer than the input. -/
theorem c6_witness :
    sdRow.mineral = "Lithium" ∧ sdRow.scenario ∈ ["STEPS", "APS"] ∧
    (filterSeries [sdRow] "Lithium" ["STEPS", "APS"]).length ≤ 1 :=
  ⟨((c6_filterSeries_sound [sdRow] "Lithium" ["STEPS", "APS"]).1 sdRow (by decide)).1,
   ((c6_filterSeries_sound [sdRow] "Lithium" ["STEPS", "APS"]).1 sdRow (by decide)).2,
   (c6_filterSeries_sound [sdRow] "Lithium" ["STEPS", "APS"]).2⟩

/-- C7: the technology filter keeps exactly the rows whose mineral contains,
case-insensitively as a substring, the base mineral — the part of the
selected mineral before the first hyphen, trimmed — and whose scenario is
selected.  The filter is a total function, so an empty result is an ordinary
value, not an error. -/
theorem c7_filterTech_characterization (tech_df : List TechDemandRecord)
    (mineral : String) (scenario : List String) :
    ∀ r, r ∈ filterTech tech_df mineral scenario ↔
      r ∈ tech_df ∧ CIContains r.mineral (baseMineral mineral) ∧
        r.scenario ∈ scenario := by
  intro r
  rw [filterTech, List.mem_filter]
  simp [List.contains, List.elem_eq_mem, containsCI_iff, and_assoc]

/-- A concrete technology-demand row whose mineral label differs textually
from the selector "Lithium-Ion" but contains its base mineral. -/
def techRow : TechDemandRecord :=
  { mineral := "Lithium carbonate", scenario := "STEPS"
    technology := "EV batteries", year := 2030, demand_kt := 50 }

/-- C7 witness: the row is kept by the filter for selector "Lithium-Ion",
hence its mineral contains the trimmed base mineral case-insensitively and
its scenario is selected. -/
theorem c7_witness :
    techRow ∈ [techRow] ∧ CIContains techRow.mineral (baseMineral "Lithium-Ion") ∧
      techRow.scenario ∈ ["STEPS"] :=
  (c7_filterTech_characterization [techRow] "Lithium-Ion" ["STEPS"] techRow).mp
    (by decide)

/-- C8: the risk ranking (and its displayed table) computed by a pipeline
run is identical for any two mineral and main-scenario selections: it is
computed from the full summary table, filtered only by the ranking
scenario. -/
theorem c8_ranking_independent_of_selection (df : List SupplyDemandRecord)
    (summary : List SummaryRecord) (tech_df : List TechDemandRecord)
    (m1 m2 : String) (s1 s2 : List String) (rs : String) :
    (pipeline df summary tech_df m1 s1 rs).ranking =
        (pipeline df summary tech_df m2 s2 rs).ranking ∧
    (pipeline df summary tech_df m1 s1 rs).ranking_disp =
        (pipeline df summary tech_df m2 s2 rs).ranking_disp ∧
    (pipeline df summary tech_df m1 s1 rs).ranking = rankRisk summary rs :=
  ⟨rfl, rfl, rfl⟩

/-- C9: the ranking step leaves the loaded summary table unchanged — the
`fillna` substitutions are applied to the `.copy()` only — and the ranking
it produces is the one computed from that untouched table. -/
theorem c9_summary_table_unchanged (summary : List SummaryRecord) (sc : String) :
    (rankRiskRun summary sc).1 = summary ∧
    (rankRiskRun summary sc).2 = rankRisk summary sc := by
  refine ⟨rfl, ?_⟩
  simp only [rankRiskRun, rankRisk, sortedRows]
  rw [List.map_map]
  rfl

/-- C10: every displayed ranking row carries the substituted values in the
`max_deficit_kt` and `first_deficit_year` columns — `some` of the original
value, with 0 and 9999 in place of a missing cell — never the original
missing indicator, while the other columns are passed through unchanged. -/
theorem c10_display_shows_substituted (summary : List SummaryRecord) (sc : String) :
    ∀ d ∈ ranking_display summary sc, ∃ r ∈ summary, r.scenario = sc ∧
      d.mineral = r.mineral ∧
      d.max_deficit_kt = some (r.max_deficit_kt.getD 0) ∧
      d.first_deficit_year = some (r.first_deficit_year.getD 9999) ∧
      d.gap_2030_kt = r.gap_2030_kt ∧ d.gap_2040_kt = r.gap_2040_kt := by
  intro d hd
  rcases List.mem_map.mp hd with ⟨rr, hrr, hdr⟩
  rcases rankRisk_row_mem hrr with ⟨r, hr, hsc, hrow⟩
  subst hdr
  refine ⟨r, hr, hsc, ?_, ?_, ?_, ?_, ?_⟩ <;> simp [hrow, substSummary]

/-- The display row the spec example produces for Lithium: substituted
values, not missing ones. -/
def lithiumDisplay : DisplayRow :=
  { risk_rank := 1, mineral := "Lithium", first_deficit_year := some 9999
    max_deficit_kt := some 0, gap_2030_kt := none, gap_2040_kt := none }

/-- C10 witness: the Lithium display row of the spec example shows
`some 0` and `some 9999`, matching the substituted values of the original
all-missing Lithium summary row. -/
theorem c10_witness :
    ∃ r ∈ exampleSummary, r.scenario = "STEPS" ∧
      lithiumDisplay.mineral = r.mineral ∧
      lithiumDisplay.max_deficit_kt = some (r.max_deficit_kt.getD 0) ∧
      lithiumDisplay.first_deficit_year = some (r.first_deficit_year.getD 9999) ∧
      lithiumDisplay.gap_2030_kt = r.gap_2030_kt ∧
      lithiumDisplay.gap_2040_kt = r.gap_2040_kt :=
  c10_display_shows_substituted exampleSummary "STEPS" lithiumDisplay (by decide)

end IEADash
